import Mathlib

/-!
Verification of the hammerclock message/reducer core.

This file is a shallow embedding, in Lean 4, of the state-update core of the
hammerclock repository:

* the data model (`Model`, `Player`, `Options`, `Rules`, `LogEntry`) from
  `src/internal/hammerclock/model.go` and `src/internal/app/model.go`;
* the reducer `Update` and its handlers from `src/internal/app/update.go`;
* the initial state `NewModel` from `src/internal/hammerclock/model.go`;
* one iteration of the periodic ticker goroutine from
  `src/cmd/hammerclock/main.go`;
* the bounded asynchronous logger from
  `src/internal/hammerclock/logging/logging.go`.

Conventions used throughout the embedding:

* Go `time.Duration` fields that are only ever incremented by whole seconds
  (`TimeElapsed`, `TotalGameTime`) are modelled in seconds as `Nat`.
* Go slices are Lean `List`s; Go's in-place mutation through shared `*Player`
  pointers is modelled by returning the updated value (the caller installs the
  returned model as the new state of record, so only the post-state is
  observable).
* A Go runtime panic (out-of-range slice index) is modelled by returning
  `none`; handlers that cannot panic are total.
* Wall-clock values (`DateTime` of a log entry) and file/terminal I/O
  (CSV writes, JSON option persistence, tview rendering) are outside the
  model; log entries carry the four remaining fields.
* Color palettes are identified by their canonical name; the RGB tables are
  display-only data with no behavioural content.
-/

namespace Hammerclock

/-- `GameStatus` from `src/internal/hammerclock/model.go` (string constants
`GameNotStarted | GameInProgress | GamePaused` modelled as an enumeration). -/
inductive GameStatus where
  | gameNotStarted
  | gameInProgress
  | gamePaused
deriving DecidableEq

/-- A log entry (`LogEntry` from the `ui`/`LogPanel` packages). The Go struct
also carries a `DateTime` string taken from the wall clock, which is not
representable in a pure embedding and is omitted; the remaining fields are
kept exactly. -/
structure LogEntry where
  PlayerName : String
  Turn : Nat
  Phase : String
  Message : String
deriving DecidableEq

/-- `Rules` from `src/components/hammerclock/Rules/Rules.go`. -/
structure Rules where
  Name : String
  Phases : List String
  OneTurnForAllPlayers : Bool
deriving DecidableEq

/-- `Options` from `src/internal/app/model.go` (second revision).
`PlayerCount` is a Go `int` and is modelled as `Int` so that non-positive
payloads of `SetPlayerCountMsg` are representable; `Default` only ever holds
an index validated at store time and is modelled as `Nat`. -/
structure Options where
  Default : Nat
  Rules : List Rules
  PlayerCount : Int
  PlayerNames : List String
  ColorPalette : String
  TimeFormat : String
  EnableCSVLog : Bool
deriving DecidableEq

/-- `Player` from `src/internal/hammerclock/model.go`. `ArmyList` is dead
weight for the reducer (never read or written by any handler) and is omitted. -/
structure Player where
  Name : String
  TimeElapsed : Nat
  IsTurn : Bool
  CurrentPhase : Nat
  TurnCount : Nat
  ActionLog : List LogEntry
deriving DecidableEq

/-- `Model` from `src/internal/hammerclock/model.go`: the full application
state threaded through the reducer. `CurrentColorPalette` holds the canonical
name of the resolved palette (`palette.ColorPalette` values are display-only
RGB tables). -/
structure Model where
  Players : List Player
  Phases : List String
  GameStatus : GameStatus
  CurrentScreen : String
  GameStarted : Bool
  Options : Options
  CurrentColorPalette : String
  TotalGameTime : Nat
deriving DecidableEq

/-- The key part of a `KeyPressMsg` (`tcell.Key` plus the rune, folded into
one sum: the reducer only distinguishes Escape, Ctrl-C, a rune key with its
character, and everything else). -/
inductive Key where
  | escape
  | ctrlC
  | runeKey (c : Char)
  | otherKey
deriving DecidableEq

/-- The closed message union from `src/internal/app/update.go` (second
revision): one constructor per `*Msg` struct, plus `nilMsg` for a `nil`
interface value, which Go's type switch sends to the `default:` branch. -/
inductive Msg where
  | startGame
  | endGame
  | endGameConfirm (confirmed : Bool)
  | showEndGameConfirm
  | switchTurns
  | nextPhase
  | prevPhase
  | showOptions
  | showAbout
  | showMainScreen
  | restoreMainUI
  | tick
  | keyPress (k : Key)
  | setRuleset (index : Int)
  | setPlayerCount (count : Int)
  | setPlayerName (index : Int) (name : String)
  | setColorPalette (name : String)
  | setTimeFormat (format : String)
  | setOneTurnForAllPlayers (value : Bool)
  | setEnableCSVLog (value : Bool)
  | showModal (modalType : String)
  | nilMsg
deriving DecidableEq

/-- A `Command` is a deferred closure returning a follow-up `Message` (or Go
`nil`). Every command closure the reducer builds is a constant function, so a
command is faithfully represented by the optional message it yields:
`NoCommand` yields `nil`, i.e. `none`. -/
def NoCommand : Option Msg := none

/-- Fallback `Rules` value used only as the default of `List.getD` where the
Go code indexes `Options.Rules[Options.Default]`; all states considered by
the theorems below keep `Default` in range, where `getD` agrees with Go's
indexing. -/
def noRules : Rules := ⟨"", [], false⟩

/-- Fallback `Player` for `List.getD` when stating per-player properties. -/
def anyPlayer : Player := ⟨"", 0, false, 0, 0, []⟩

/-- `ColorPaletteByName` from the `palette`/`Palette` package: resolves a
palette name, defaulting to k9s for unknown names. Palettes are identified by
their canonical name. -/
def ColorPaletteByName (name : String) : String :=
  match name with
  | "dracula" => "dracula"
  | "monokai" => "monokai"
  | "warhammer" => "warhammer"
  | "killteam" => "killteam"
  | _ => "k9s"

/-- `AddLogEntry` from `src/internal/app/PlayerPanel.go:172`: computes the
current phase name (guarded by `0 <= CurrentPhase < len(phases)`; the lower
bound is automatic for `Nat`), appends the entry to the player's `ActionLog`
and returns the updated player (Go mutates through the pointer). The
side-effecting CSV write (`writeLogEntryToCSV`, performed when
`EnableCSVLog`) is file I/O, modelled separately by the logger state machine
below. -/
def AddLogEntry (player : Player) (model : Model) (message : String) : Player :=
  let phases := (model.Options.Rules.getD model.Options.Default noRules).Phases
  let currentPhase := if player.CurrentPhase < phases.length then phases.getD player.CurrentPhase "" else ""
  { player with ActionLog := player.ActionLog ++
      [{ PlayerName := player.Name, Turn := player.TurnCount, Phase := currentPhase, Message := message }] }

/-- `handleStartGame` from `src/internal/app/update.go:479`: three-way toggle
`Paused -> InProgress`, `InProgress -> Paused`, otherwise
`-> InProgress` with `GameStarted := true`; logs one entry on every player
whose turn it is. -/
def handleStartGame (model : Model) : Model × Option Msg :=
  if model.GameStatus = GameStatus.gamePaused then
    let newModel := { model with GameStatus := GameStatus.gameInProgress }
    let newPlayers := newModel.Players.map
      (fun p => if p.IsTurn then AddLogEntry p newModel "Game resumed" else p)
    ({ newModel with Players := newPlayers }, NoCommand)
  else if model.GameStatus = GameStatus.gameInProgress then
    let newModel := { model with GameStatus := GameStatus.gamePaused }
    let newPlayers := newModel.Players.map
      (fun p => if p.IsTurn then AddLogEntry p newModel "Game paused" else p)
    ({ newModel with Players := newPlayers }, NoCommand)
  else
    let newModel := { model with GameStatus := GameStatus.gameInProgress, GameStarted := true }
    let newPlayers := newModel.Players.map
      (fun p => if p.IsTurn then AddLogEntry p newModel "Game started" else p)
    ({ newModel with Players := newPlayers }, NoCommand)

/-- Per-player body of the `handleEndGame` loop
(`src/internal/app/update.go:533`): zero the timers and counters, clear the
action log, give the turn to player 0 only, then log a "Game ended" entry
(so each post-state action log holds exactly that one entry). -/
def endGamePlayer (model : Model) (i : Nat) (p : Player) : Player :=
  let p1 : Player := { p with TimeElapsed := 0, TurnCount := 0, CurrentPhase := 0, ActionLog := [] }
  if i == 0 then
    AddLogEntry { p1 with IsTurn := true } model "Game ended - reset to initial state"
  else
    AddLogEntry { p1 with IsTurn := false } model "Game ended"

/-- The indexed loop of `handleEndGame` over the players slice. -/
def endGamePlayersAux (model : Model) (i : Nat) : List Player → List Player
  | [] => []
  | p :: rest => endGamePlayer model i p :: endGamePlayersAux model (i + 1) rest

/-- `handleEndGame` from `src/internal/app/update.go:521`: the reset runs
only when `GameStarted`; otherwise the state is returned unchanged. -/
def handleEndGame (model : Model) : Model × Option Msg :=
  if model.GameStarted then
    let newModel := { model with
                       GameStatus := GameStatus.gameNotStarted,
                       GameStarted := false,
                       TotalGameTime := 0 }
    ({ newModel with Players := endGamePlayersAux newModel 0 model.Players }, NoCommand)
  else
    (model, NoCommand)

/-- `handleEndGameConfirm` from `src/internal/app/update.go:557`: on
`Confirmed:true` delegates to `handleEndGame`, on `Confirmed:false` keeps the
state; either way returns the command whose closure yields
`ShowMainScreenMsg` (restore the main screen). -/
def handleEndGameConfirm (confirmed : Bool) (model : Model) : Model × Option Msg :=
  if confirmed then
    ((handleEndGame model).1, some Msg.showMainScreen)
  else
    (model, some Msg.showMainScreen)

/-- `handleShowEndGameConfirm` from `src/internal/app/update.go:575`: state
unchanged, command yields `ShowModalMsg{Type:"EndGameConfirm"}`. -/
def handleShowEndGameConfirm (model : Model) : Model × Option Msg :=
  (model, some (Msg.showModal "EndGameConfirm"))

/-- Per-player body of the `handleSwitchTurns` loop
(`src/internal/app/update.go:590`): log "Turn N ended" for the player losing
the turn, flip `IsTurn`, and for the player gaining the turn increment
`TurnCount`, reset `CurrentPhase` to 0 and log the turn/phase start entries
(the phase entry only when the phase list is non-empty). -/
def switchTurnsPlayer (model : Model) (p : Player) : Player :=
  let p1 := if p.IsTurn then AddLogEntry p model ("Turn " ++ toString p.TurnCount ++ " ended") else p
  let p2 : Player := { p1 with IsTurn := !p.IsTurn }
  if p2.IsTurn then
    let p3 : Player := { p2 with TurnCount := p2.TurnCount + 1, CurrentPhase := 0 }
    let p4 := AddLogEntry p3 model ("Turn " ++ toString p3.TurnCount ++ " started")
    if 0 < model.Phases.length then
      AddLogEntry p4 model ("Turn " ++ toString p3.TurnCount ++ " - Entered phase: " ++ model.Phases.getD 0 "")
    else p4
  else p2

/-- `handleSwitchTurns` from `src/internal/app/update.go:584`: rebuilds the
players list through `switchTurnsPlayer` and forces `CurrentScreen` back to
"main" when a different screen is active. -/
def handleSwitchTurns (model : Model) : Model × Option Msg :=
  ({ model with
      Players := model.Players.map (switchTurnsPlayer model),
      CurrentScreen := if model.CurrentScreen ≠ "main" then "main" else model.CurrentScreen }, NoCommand)

/-- Per-player body of the `handleNextPhase` loop
(`src/internal/app/update.go:632`): the active player advances one phase when
strictly below the last index (`CurrentPhase < len(Phases)-1`; for an empty
phase list Go's `len-1 = -1` rejects every `CurrentPhase >= 0`, matching
truncated `Nat` subtraction here), logging the phase entered. -/
def nextPhasePlayer (model : Model) (p : Player) : Player :=
  if p.IsTurn ∧ p.CurrentPhase < model.Phases.length - 1 then
    let p1 : Player := { p with CurrentPhase := p.CurrentPhase + 1 }
    AddLogEntry p1 model ("Started phase: " ++ model.Phases.getD p1.CurrentPhase "")
  else p

/-- `handleNextPhase` from `src/internal/app/update.go:626`. -/
def handleNextPhase (model : Model) : Model × Option Msg :=
  ({ model with
      Players := model.Players.map (nextPhasePlayer model),
      CurrentScreen := if model.CurrentScreen ≠ "main" then "main" else model.CurrentScreen }, NoCommand)

/-- Per-player body of the `handlePrevPhase` loop
(`src/internal/app/update.go:664`): the active player retreats one phase when
`CurrentPhase > 0`, logging the phase entered. -/
def prevPhasePlayer (model : Model) (p : Player) : Player :=
  if p.IsTurn ∧ 0 < p.CurrentPhase then
    let p1 : Player := { p with CurrentPhase := p.CurrentPhase - 1 }
    AddLogEntry p1 model ("Started phase: " ++ model.Phases.getD p1.CurrentPhase "")
  else p

/-- `handlePrevPhase` from `src/internal/app/update.go:658`. -/
def handlePrevPhase (model : Model) : Model × Option Msg :=
  ({ model with
      Players := model.Players.map (prevPhasePlayer model),
      CurrentScreen := if model.CurrentScreen ≠ "main" then "main" else model.CurrentScreen }, NoCommand)

/-- `handleShowOptions` from `src/internal/app/update.go:690`: toggle between
"options" and "main". -/
def handleShowOptions (model : Model) : Model × Option Msg :=
  if model.CurrentScreen = "options" then
    ({ model with CurrentScreen := "main" }, NoCommand)
  else
    ({ model with CurrentScreen := "options" }, NoCommand)

/-- `handleShowAbout` from `src/internal/app/update.go:705`: toggle between
"about" and "main". -/
def handleShowAbout (model : Model) : Model × Option Msg :=
  if model.CurrentScreen = "about" then
    ({ model with CurrentScreen := "main" }, NoCommand)
  else
    ({ model with CurrentScreen := "about" }, NoCommand)

/-- `handleShowMainScreen` from `src/internal/app/update.go:720`: always
return to "main" and issue the command whose closure yields
`RestoreMainUIMsg`. -/
def handleShowMainScreen (model : Model) : Model × Option Msg :=
  ({ model with CurrentScreen := "main" }, some Msg.restoreMainUI)

/-- `handleTick` from `src/internal/app/update.go:734`: only while
`GameStarted && GameStatus == GameInProgress`, add one second to
`TotalGameTime` and to the `TimeElapsed` of every player whose turn it is;
otherwise the state is returned unchanged. -/
def handleTick (model : Model) : Model × Option Msg :=
  if model.GameStarted = true ∧ model.GameStatus = GameStatus.gameInProgress then
    let newPlayers := model.Players.map
      (fun p => if p.IsTurn then { p with TimeElapsed := p.TimeElapsed + 1 } else p)
    ({ model with TotalGameTime := model.TotalGameTime + 1, Players := newPlayers }, NoCommand)
  else
    (model, NoCommand)

/-- `handleSetRuleset` from `src/internal/app/update.go:834`. The Go body
indexes `model.Options.Rules[msg.Index]` with no bounds check, so an
out-of-range index is a runtime panic, modelled as `none`. -/
def handleSetRuleset (index : Int) (model : Model) : Option (Model × Option Msg) :=
  if h : 0 ≤ index ∧ index.toNat < model.Options.Rules.length then
    some ({ model with
             Options := { model.Options with Default := index.toNat },
             Phases := (model.Options.Rules.get ⟨index.toNat, h.2⟩).Phases }, NoCommand)
  else
    none

/-- `handleSetPlayerCount` from `src/internal/app/update.go:842`: a
non-positive count leaves the state unchanged; otherwise the count is stored
and the player-names list is padded with empty strings up to the count. -/
def handleSetPlayerCount (count : Int) (model : Model) : Model × Option Msg :=
  if count ≤ 0 then
    (model, NoCommand)
  else
    let opts1 := { model.Options with PlayerCount := count }
    let padded := opts1.PlayerNames ++ List.replicate (count.toNat - opts1.PlayerNames.length) ""
    let opts2 := if opts1.PlayerNames.length < count.toNat then
        { opts1 with PlayerNames := padded }
      else opts1
    ({ model with Options := opts2 }, NoCommand)

/-- `handleSetPlayerName` from `src/internal/app/update.go:860`: an index
outside `[0, len(PlayerNames))` leaves the state unchanged; otherwise the
name at that index is replaced (on a fresh copy of the slice). -/
def handleSetPlayerName (index : Int) (name : String) (model : Model) : Model × Option Msg :=
  if index < 0 ∨ (model.Options.PlayerNames.length : Int) ≤ index then
    (model, NoCommand)
  else
    let newNames := model.Options.PlayerNames.set index.toNat name
    ({ model with Options := { model.Options with PlayerNames := newNames } }, NoCommand)

/-- `handleSetColorPalette` from `src/internal/app/update.go:873`: stores the
name and re-resolves the active palette by name (total: unknown names fall
back to k9s). -/
def handleSetColorPalette (name : String) (model : Model) : Model × Option Msg :=
  ({ model with
      Options := { model.Options with ColorPalette := name },
      CurrentColorPalette := ColorPaletteByName name }, NoCommand)

/-- `handleSetTimeFormat` from `src/internal/app/update.go:881`. -/
def handleSetTimeFormat (format : String) (model : Model) : Model × Option Msg :=
  ({ model with Options := { model.Options with TimeFormat := format } }, NoCommand)

/-- `handleSetOneTurnForAllPlayers` from `src/internal/app/update.go:888`:
copies the rules slice and rewrites the flag of the currently selected
ruleset. The Go body indexes `newRules[Options.Default]` with no bounds
check; an out-of-range `Default` would panic, modelled as `none` (all states
built by this file keep `Default` in range). -/
def handleSetOneTurnForAllPlayers (value : Bool) (model : Model) : Option (Model × Option Msg) :=
  if h : model.Options.Default < model.Options.Rules.length then
    let newRule := { model.Options.Rules.get ⟨model.Options.Default, h⟩ with OneTurnForAllPlayers := value }
    let newRules := model.Options.Rules.set model.Options.Default newRule
    some ({ model with Options := { model.Options with Rules := newRules } }, NoCommand)
  else
    none

/-- `handleKeyPress` from `src/internal/app/update.go:764`: Escape/Ctrl-C and
q/Q are quit requests handled by `main` (state unchanged, no command); the
remaining recognised runes dispatch to the handlers above; `e`/`E` yields the
end-game-confirm command only when `GameStarted`; unrecognised keys are
no-ops. -/
def handleKeyPress (k : Key) (model : Model) : Model × Option Msg :=
  match k with
  | Key.escape => (model, NoCommand)
  | Key.ctrlC => (model, NoCommand)
  | Key.runeKey c =>
    if c = 'o' ∨ c = 'O' then handleShowOptions model
    else if c = 'a' ∨ c = 'A' then handleShowAbout model
    else if c = 's' ∨ c = 'S' then handleStartGame model
    else if c = 'e' ∨ c = 'E' then
      if model.GameStarted then (model, some Msg.showEndGameConfirm) else (model, NoCommand)
    else if c = 'p' ∨ c = 'P' then handleNextPhase model
    else if c = 'b' ∨ c = 'B' then handlePrevPhase model
    else if c = 'q' ∨ c = 'Q' then (model, NoCommand)
    else if c = ' ' then handleSwitchTurns model
    else (model, NoCommand)
  | Key.otherKey => (model, NoCommand)

/-- `Update` from `src/internal/app/update.go:426`: the reducer's exhaustive
dispatch. `ShowModalMsg`, a `nil` message and any other unlisted value reach
the `default:` branch (state unchanged, `NoCommand`). The
`SetEnableCSVLogMsg` case updates the flag inline (its `SaveOptions` call is
file I/O outside the model). `none` marks the two panicking paths. -/
def Update (msg : Msg) (model : Model) : Option (Model × Option Msg) :=
  match msg with
  | Msg.startGame => some (handleStartGame model)
  | Msg.endGame => some (handleEndGame model)
  | Msg.endGameConfirm confirmed => some (handleEndGameConfirm confirmed model)
  | Msg.showEndGameConfirm => some (handleShowEndGameConfirm model)
  | Msg.switchTurns => some (handleSwitchTurns model)
  | Msg.nextPhase => some (handleNextPhase model)
  | Msg.prevPhase => some (handlePrevPhase model)
  | Msg.showOptions => some (handleShowOptions model)
  | Msg.showAbout => some (handleShowAbout model)
  | Msg.showMainScreen => some (handleShowMainScreen model)
  | Msg.restoreMainUI => some (model, NoCommand)
  | Msg.tick => some (handleTick model)
  | Msg.keyPress k => some (handleKeyPress k model)
  | Msg.setRuleset index => handleSetRuleset index model
  | Msg.setPlayerCount count => some (handleSetPlayerCount count model)
  | Msg.setPlayerName index name => some (handleSetPlayerName index name model)
  | Msg.setColorPalette name => some (handleSetColorPalette name model)
  | Msg.setTimeFormat format => some (handleSetTimeFormat format model)
  | Msg.setOneTurnForAllPlayers value => handleSetOneTurnForAllPlayers value model
  | Msg.setEnableCSVLog value =>
      some ({ model with Options := { model.Options with EnableCSVLog := value } }, NoCommand)
  | Msg.showModal _ => some (model, NoCommand)
  | Msg.nilMsg => some (model, NoCommand)

/-- `AllRules` from `src/components/hammerclock/Rules/Rules.go`: the static
ruleset table (eight entries). -/
def AllRules : List Rules :=
  [⟨"Warhammer 40K (10th Edition)",
    ["Command Phase", "Movement Phase", "Shooting Phase", "Charge Phase", "Fight Phase", "End Phase"],
    false⟩,
   ⟨"Kill Team (2021)",
    ["Initiative Phase", "Movement Phase", "Shooting Phase", "Fight Phase", "Morale Phase"],
    false⟩,
   ⟨"Necromunda (2022 edition)",
    ["Recovery Phase", "Action Phase", "End Phase"],
    false⟩,
   ⟨"Age of Sigmar (4th Edition)",
    ["Start of Turn Phase", "Hero Phase", "Movement Phase", "Shooting Phase", "Charge Phase",
     "Combat Phase", "End of Turn Phase"],
    false⟩,
   ⟨"Warcry (3rd edition)",
    ["Set Up Phase", "Players' Phase (activating models alternately)", "End Phase"],
    false⟩,
   ⟨"Blood Bowl (2020 edition)",
    ["Pre-Match Phase", "Kick-Off Phase", "Team Turn (both teams alternate)", "End of Turn Phase",
     "Post-Match Phase"],
    false⟩,
   ⟨"Bunny Kingdom",
    ["Draft Phase (players select cards)", "Build Phase (place cards on the board)",
     "Scoring Phase (calculate points based on card placement)"],
    false⟩,
   ⟨"Chess", [], true⟩]

/-- `DefaultPlayerNames` from `src/internal/hammerclock/options/options.go`:
for each `i` below the default player count, the prefix "Player", a space and
`string(rune(i+1))` — which in Go is the control character U+0001/U+0002, not
a decimal digit. -/
def DefaultPlayerNames : List String :=
  (List.range 2).map (fun i => "Player" ++ " " ++ String.singleton (Char.ofNat (i + 1)))

/-- `DefaultOptions` from `src/internal/hammerclock/options/options.go`
(`DefaultPlayerCount = 2`, `DefaultColorPalette = "warhammer"` from
`src/internal/hammerclock/config/config.go`; the CSV-logging flag defaults to
true). -/
def DefaultOptions : Options :=
  { Default := 0, Rules := AllRules, PlayerCount := 2, PlayerNames := DefaultPlayerNames,
    ColorPalette := "warhammer", TimeFormat := "AMPM", EnableCSVLog := true }

/-- The body of the player-construction loop of `NewModel`
(`src/internal/hammerclock/model.go:69`): the name defaults to
`"Player <i+1>"` but is overridden by `PlayerNames[i]` when present; player 0
starts with the turn; two initialization entries seed the action log via
`AddLogEntry`. -/
def initialPlayer (base : Model) (i : Nat) : Player :=
  let name := if i < base.Options.PlayerNames.length
    then base.Options.PlayerNames.getD i ""
    else "Player " ++ toString (i + 1)
  let p : Player := { Name := name, TimeElapsed := 0, IsTurn := i == 0, CurrentPhase := 0,
                      TurnCount := 0, ActionLog := [] }
  if i == 0 then AddLogEntry p base "Initialized - active player"
  else AddLogEntry p base "Initialized"

/-- `NewModel` from `src/internal/hammerclock/model.go:52`: the initial
state, built from `DefaultOptions` — two players, player 0 active, game not
started, phases those of the default ruleset, K9s palette. -/
def NewModel : Model :=
  let opts := DefaultOptions
  let base : Model := { Players := [], Phases := (opts.Rules.getD opts.Default noRules).Phases,
                        GameStatus := GameStatus.gameNotStarted, CurrentScreen := "main",
                        GameStarted := false, Options := opts, CurrentColorPalette := "k9s",
                        TotalGameTime := 0 }
  { base with Players := (List.range opts.PlayerCount.toNat).map (initialPlayer base) }

/-- Number of players whose `IsTurn` flag is set. -/
def countActive (l : List Player) : Nat := (l.filter (fun p => p.IsTurn)).length

/-- One reducer step: some message takes `s` to `s'` without panicking. -/
def stepRel (s s' : Model) : Prop := ∃ msg c, Update msg s = some (s', c)

/-- States reachable from the initial state by any sequence of messages. -/
def Reachable (s : Model) : Prop := Relation.ReflTransGen stepRel NewModel s

/-- What one iteration of the ticker goroutine does (which of its two
possible actions it performs). -/
structure SchedulerAction where
  postsTick : Bool
  repaintsClock : Bool
deriving DecidableEq

/-- One iteration of the ticker goroutine from
`src/cmd/hammerclock/main.go:93`: on each one-second tick it performs the
direct clock repaint (`view.UpdateClock`) only under `if model.GameStarted`,
then unconditionally posts `TickMsg` onto the message channel. -/
def schedulerTickIteration (gameStarted : Bool) : SchedulerAction :=
  { postsTick := true, repaintsClock := gameStarted }

/-- Capacity of the buffered log channel
(`make(chan …, 100)` in `src/internal/hammerclock/logging/logging.go:31`). -/
def logChannelCapacity : Nat := 100

/-- State of the asynchronous logger: the buffered channel's contents plus
ghost counters (cumulative rows written by the drain goroutine, entries
submitted, entries dropped) used to state the backpressure properties. -/
structure LoggerState where
  buffer : List LogEntry
  written : Nat
  submitted : Nat
  dropped : Nat
deriving DecidableEq

/-- Logger state right after `Initialise`: empty channel, nothing written. -/
def initialLoggerState : LoggerState := ⟨[], 0, 0, 0⟩

/-- `SendLogEntry` from `src/internal/hammerclock/logging/logging.go:65`: the
non-blocking `select` enqueues the entry when the channel has room and
otherwise drops it silently (`default:` branch); it never blocks. -/
def SendLogEntry (st : LoggerState) (entry : LogEntry) : LoggerState :=
  if st.buffer.length < logChannelCapacity then
    { st with buffer := st.buffer ++ [entry], submitted := st.submitted + 1 }
  else
    { st with dropped := st.dropped + 1, submitted := st.submitted + 1 }

/-- One step of the drain goroutine
(`for entry := range logChannel { writeLogEntry(entry) }`,
`src/internal/hammerclock/logging/logging.go:43`): removing one buffered
entry appends exactly one CSV row. -/
def drainOne (st : LoggerState) : LoggerState :=
  match st.buffer with
  | [] => st
  | _ :: rest => { st with buffer := rest, written := st.written + 1 }

/-- An event of the logger: a producer submitting an entry, or the drain
goroutine consuming one. -/
inductive LogOp where
  | submit (entry : LogEntry)
  | drain

/-- Run the logger over an arbitrary interleaving of submit and drain
events. -/
def runLogger (st : LoggerState) : List LogOp → LoggerState
  | [] => st
  | op :: ops =>
    runLogger (match op with
      | LogOp.submit e => SendLogEntry st e
      | LogOp.drain => drainOne st) ops

/-- The single-active-turn invariant of the reachable state space: the
players list keeps its initial length 2 and exactly one player holds the
turn. -/
def Inv (m : Model) : Prop := m.Players.length = 2 ∧ countActive m.Players = 1

/-- The phase name `AddLogEntry` records for a player whose `CurrentPhase`
is 0: the first phase of the selected ruleset, or the empty string when that
ruleset has no phases. -/
def endGamePhaseLabel (m : Model) : String :=
  let phases := (m.Options.Rules.getD m.Options.Default noRules).Phases
  if 0 < phases.length then phases.getD 0 "" else ""

/-- A started three-player state with exactly one active player, used to
probe `handleSwitchTurns` outside the two-player reachable space. -/
def threePlayerModel : Model :=
  { Players := [⟨"P1", 0, true, 0, 0, []⟩, ⟨"P2", 0, false, 0, 0, []⟩, ⟨"P3", 0, false, 0, 0, []⟩],
    Phases := [], GameStatus := GameStatus.gameInProgress, CurrentScreen := "main",
    GameStarted := true, Options := DefaultOptions, CurrentColorPalette := "k9s",
    TotalGameTime := 0 }

/-- A state with `GameStarted = false` whose single player carries non-zero
timers, used to probe the end-game reset outside a running game. -/
def unstartedTimerModel : Model :=
  { Players := [⟨"P1", 5, true, 2, 3, []⟩], Phases := [], GameStatus := GameStatus.gameNotStarted,
    CurrentScreen := "main", GameStarted := false, Options := DefaultOptions,
    CurrentColorPalette := "k9s", TotalGameTime := 0 }

/-- A two-player state over three phases whose active player sits at the
interior phase index 1 (the inactive player at index 0). -/
def phaseDemoModel : Model :=
  { Players := [⟨"P1", 0, true, 1, 1, []⟩, ⟨"P2", 0, false, 0, 0, []⟩],
    Phases := ["A", "B", "C"], GameStatus := GameStatus.gameInProgress, CurrentScreen := "main",
    GameStarted := true, Options := DefaultOptions, CurrentColorPalette := "k9s",
    TotalGameTime := 0 }

/-- Like `phaseDemoModel` but with the active player at the last phase
index. -/
def phaseDemoLastModel : Model :=
  { Players := [⟨"P1", 0, true, 2, 1, []⟩, ⟨"P2", 0, false, 0, 0, []⟩],
    Phases := ["A", "B", "C"], GameStatus := GameStatus.gameInProgress, CurrentScreen := "main",
    GameStarted := true, Options := DefaultOptions, CurrentColorPalette := "k9s",
    TotalGameTime := 0 }

section Lemmas

@[simp] lemma AddLogEntry_IsTurn (p : Player) (m : Model) (s : String) :
    (AddLogEntry p m s).IsTurn = p.IsTurn := rfl

@[simp] lemma AddLogEntry_TimeElapsed (p : Player) (m : Model) (s : String) :
    (AddLogEntry p m s).TimeElapsed = p.TimeElapsed := rfl

@[simp] lemma AddLogEntry_CurrentPhase (p : Player) (m : Model) (s : String) :
    (AddLogEntry p m s).CurrentPhase = p.CurrentPhase := rfl

@[simp] lemma AddLogEntry_TurnCount (p : Player) (m : Model) (s : String) :
    (AddLogEntry p m s).TurnCount = p.TurnCount := rfl

@[simp] lemma AddLogEntry_Name (p : Player) (m : Model) (s : String) :
    (AddLogEntry p m s).Name = p.Name := rfl

@[simp] lemma countActive_nil : countActive [] = 0 := rfl

@[simp] lemma countActive_cons (p : Player) (l : List Player) :
    countActive (p :: l) = (if p.IsTurn = true then 1 else 0) + countActive l := by
  by_cases h : p.IsTurn = true <;>
    simp [countActive, List.filter_cons, h, Nat.add_comm]

lemma countActive_map_of_preserved (f : Player → Player) (l : List Player)
    (hf : ∀ p, (f p).IsTurn = p.IsTurn) : countActive (l.map f) = countActive l := by
  induction l with
  | nil => rfl
  | cons a t ih => simp [hf, ih]

lemma countActive_map_logIf (m' : Model) (s : String) (l : List Player) :
    countActive (l.map (fun p => if p.IsTurn then AddLogEntry p m' s else p)) = countActive l :=
  countActive_map_of_preserved _ _ (fun p => by cases h : p.IsTurn <;> simp [h])

lemma switchTurnsPlayer_IsTurn (m : Model) (p : Player) :
    (switchTurnsPlayer m p).IsTurn = !p.IsTurn := by
  cases h : p.IsTurn
  · simp only [switchTurnsPlayer, h, Bool.not_false, if_false]
    split <;> (split <;> simp)
  · simp [switchTurnsPlayer, h]

lemma nextPhasePlayer_IsTurn (m : Model) (p : Player) :
    (nextPhasePlayer m p).IsTurn = p.IsTurn := by
  unfold nextPhasePlayer; split <;> simp

lemma prevPhasePlayer_IsTurn (m : Model) (p : Player) :
    (prevPhasePlayer m p).IsTurn = p.IsTurn := by
  unfold prevPhasePlayer; split <;> simp

lemma endGamePlayer_IsTurn (m : Model) (i : Nat) (p : Player) :
    (endGamePlayer m i p).IsTurn = (i == 0) := by
  unfold endGamePlayer; split <;> simp_all

lemma endGamePlayersAux_length (m : Model) (k : Nat) (l : List Player) :
    (endGamePlayersAux m k l).length = l.length := by
  induction l generalizing k with
  | nil => rfl
  | cons a t ih => simp [endGamePlayersAux, ih]

lemma countActive_map_flip (f : Player → Player) (a b : Player)
    (hf : ∀ p, (f p).IsTurn = !p.IsTurn) (hc : countActive [a, b] = 1) :
    countActive ([a, b].map f) = 1 := by
  have ha := hf a
  have hb := hf b
  cases h1 : a.IsTurn <;> cases h2 : b.IsTurn <;>
    simp_all

lemma inv_of_eq_players {m m' : Model} (h : m'.Players = m.Players) (hm : Inv m) : Inv m' := by
  unfold Inv at *
  rw [h]
  exact hm

lemma inv_handleStartGame (m : Model) (h : Inv m) : Inv (handleStartGame m).1 := by
  unfold handleStartGame
  split_ifs <;>
    exact ⟨by simpa using h.1, by simpa [countActive_map_logIf] using h.2⟩

lemma inv_handleSwitchTurns (m : Model) (h : Inv m) : Inv (handleSwitchTurns m).1 := by
  obtain ⟨hlen, hcnt⟩ := h
  rcases hl : m.Players with _ | ⟨a, _ | ⟨b, _ | ⟨x, t⟩⟩⟩ <;> rw [hl] at hlen <;> simp at hlen
  rw [hl] at hcnt
  refine ⟨by simp [handleSwitchTurns, hl], ?_⟩
  have : (handleSwitchTurns m).1.Players = [a, b].map (switchTurnsPlayer m) := by
    simp [handleSwitchTurns, hl]
  rw [this]
  exact countActive_map_flip _ a b (switchTurnsPlayer_IsTurn m) hcnt

lemma inv_handleEndGame (m : Model) (h : Inv m) : Inv (handleEndGame m).1 := by
  obtain ⟨hlen, hcnt⟩ := h
  unfold handleEndGame
  split
  · rcases hl : m.Players with _ | ⟨a, _ | ⟨b, _ | ⟨x, t⟩⟩⟩ <;> rw [hl] at hlen <;> simp at hlen
    refine ⟨by simp [hl, endGamePlayersAux_length], ?_⟩
    simp [hl, endGamePlayersAux, endGamePlayer_IsTurn]
  · exact ⟨hlen, hcnt⟩

lemma inv_handleEndGameConfirm (b : Bool) (m : Model) (h : Inv m) :
    Inv (handleEndGameConfirm b m).1 := by
  unfold handleEndGameConfirm
  split
  · exact inv_handleEndGame m h
  · exact h

lemma inv_handleNextPhase (m : Model) (h : Inv m) : Inv (handleNextPhase m).1 :=
  ⟨by simpa [handleNextPhase] using h.1,
   by simpa [handleNextPhase, countActive_map_of_preserved _ _ (nextPhasePlayer_IsTurn m)] using h.2⟩

lemma inv_handlePrevPhase (m : Model) (h : Inv m) : Inv (handlePrevPhase m).1 :=
  ⟨by simpa [handlePrevPhase] using h.1,
   by simpa [handlePrevPhase, countActive_map_of_preserved _ _ (prevPhasePlayer_IsTurn m)] using h.2⟩

lemma inv_handleTick (m : Model) (h : Inv m) : Inv (handleTick m).1 := by
  unfold handleTick
  split
  · refine ⟨by simpa using h.1, ?_⟩
    have := countActive_map_of_preserved
      (fun p => if p.IsTurn then { p with TimeElapsed := p.TimeElapsed + 1 } else p)
      m.Players (fun p => by cases hp : p.IsTurn <;> simp [hp])
    simpa [this] using h.2
  · exact h

lemma handleShowOptions_Players (m : Model) : (handleShowOptions m).1.Players = m.Players := by
  unfold handleShowOptions; split <;> rfl

lemma handleShowAbout_Players (m : Model) : (handleShowAbout m).1.Players = m.Players := by
  unfold handleShowAbout; split <;> rfl

lemma inv_handleKeyPress (k : Key) (m : Model) (h : Inv m) : Inv (handleKeyPress k m).1 := by
  cases k with
  | escape => exact h
  | ctrlC => exact h
  | otherKey => exact h
  | runeKey c =>
    simp only [handleKeyPress]
    split_ifs <;>
      first
        | exact h
        | exact inv_of_eq_players (handleShowOptions_Players m) h
        | exact inv_of_eq_players (handleShowAbout_Players m) h
        | exact inv_handleStartGame m h
        | exact inv_handleNextPhase m h
        | exact inv_handlePrevPhase m h
        | exact inv_handleSwitchTurns m h

lemma inv_update {s s' : Model} {msg : Msg} {c : Option Msg}
    (h : Update msg s = some (s', c)) (hs : Inv s) : Inv s' := by
  cases msg with
  | startGame =>
    simp only [Update, Option.some.injEq] at h
    have h1 : _ = s' := congrArg Prod.fst h
    exact h1 ▸ inv_handleStartGame s hs
  | endGame =>
    simp only [Update, Option.some.injEq] at h
    have h1 : _ = s' := congrArg Prod.fst h
    exact h1 ▸ inv_handleEndGame s hs
  | endGameConfirm b =>
    simp only [Update, Option.some.injEq] at h
    have h1 : _ = s' := congrArg Prod.fst h
    exact h1 ▸ inv_handleEndGameConfirm b s hs
  | showEndGameConfirm =>
    simp only [Update, handleShowEndGameConfirm, Option.some.injEq] at h
    have h1 : _ = s' := congrArg Prod.fst h
    exact h1 ▸ hs
  | switchTurns =>
    simp only [Update, Option.some.injEq] at h
    have h1 : _ = s' := congrArg Prod.fst h
    exact h1 ▸ inv_handleSwitchTurns s hs
  | nextPhase =>
    simp only [Update, Option.some.injEq] at h
    have h1 : _ = s' := congrArg Prod.fst h
    exact h1 ▸ inv_handleNextPhase s hs
  | prevPhase =>
    simp only [Update, Option.some.injEq] at h
    have h1 : _ = s' := congrArg Prod.fst h
    exact h1 ▸ inv_handlePrevPhase s hs
  | showOptions =>
    simp only [Update, Option.some.injEq] at h
    have h1 : _ = s' := congrArg Prod.fst h
    exact h1 ▸ inv_of_eq_players (handleShowOptions_Players s) hs
  | showAbout =>
    simp only [Update, Option.some.injEq] at h
    have h1 : _ = s' := congrArg Prod.fst h
    exact h1 ▸ inv_of_eq_players (handleShowAbout_Players s) hs
  | showMainScreen =>
    simp only [Update, handleShowMainScreen, Option.some.injEq] at h
    have h1 : _ = s' := congrArg Prod.fst h
    exact h1 ▸ inv_of_eq_players rfl hs
  | restoreMainUI =>
    simp only [Update, Option.some.injEq] at h
    have h1 : _ = s' := congrArg Prod.fst h
    exact h1 ▸ hs
  | tick =>
    simp only [Update, Option.some.injEq] at h
    have h1 : _ = s' := congrArg Prod.fst h
    exact h1 ▸ inv_handleTick s hs
  | keyPress k =>
    simp only [Update, Option.some.injEq] at h
    have h1 : _ = s' := congrArg Prod.fst h
    exact h1 ▸ inv_handleKeyPress k s hs
  | setRuleset i =>
    simp only [Update, handleSetRuleset] at h
    split at h
    · simp only [Option.some.injEq] at h
      have h1 : _ = s' := congrArg Prod.fst h
      exact inv_of_eq_players (h1 ▸ rfl) hs
    · exact absurd h (by simp)
  | setPlayerCount n =>
    simp only [Update, handleSetPlayerCount, Option.some.injEq] at h
    split at h <;>
      · have h1 : _ = s' := congrArg Prod.fst h
        exact inv_of_eq_players (h1 ▸ rfl) hs
  | setPlayerName i n =>
    simp only [Update, handleSetPlayerName, Option.some.injEq] at h
    split at h <;>
      · have h1 : _ = s' := congrArg Prod.fst h
        exact inv_of_eq_players (h1 ▸ rfl) hs
  | setColorPalette n =>
    simp only [Update, handleSetColorPalette, Option.some.injEq] at h
    have h1 : _ = s' := congrArg Prod.fst h
    exact inv_of_eq_players (h1 ▸ rfl) hs
  | setTimeFormat f =>
    simp only [Update, handleSetTimeFormat, Option.some.injEq] at h
    have h1 : _ = s' := congrArg Prod.fst h
    exact inv_of_eq_players (h1 ▸ rfl) hs
  | setOneTurnForAllPlayers v =>
    simp only [Update, handleSetOneTurnForAllPlayers] at h
    split at h
    · simp only [Option.some.injEq] at h
      have h1 : _ = s' := congrArg Prod.fst h
      exact inv_of_eq_players (h1 ▸ rfl) hs
    · exact absurd h (by simp)
  | setEnableCSVLog v =>
    simp only [Update, Option.some.injEq] at h
    have h1 : _ = s' := congrArg Prod.fst h
    exact inv_of_eq_players (h1 ▸ rfl) hs
  | showModal t =>
    simp only [Update, Option.some.injEq] at h
    have h1 : _ = s' := congrArg Prod.fst h
    exact h1 ▸ hs
  | nilMsg =>
    simp only [Update, Option.some.injEq] at h
    have h1 : _ = s' := congrArg Prod.fst h
    exact h1 ▸ hs

lemma inv_NewModel : Inv NewModel := by constructor <;> decide

lemma inv_reachable {s : Model} (h : Reachable s) : Inv s := by
  induction h with
  | refl => exact inv_NewModel
  | tail _ hstep ih =>
    obtain ⟨msg, c, hmsg⟩ := hstep
    exact inv_update hmsg ih

lemma getD_map_of_lt (f : Player → Player) (l : List Player) (i : Nat) (d : Player)
    (h : i < l.length) : (l.map f).getD i d = f (l.getD i d) := by
  rw [List.getD_eq_getElem?_getD, List.getD_eq_getElem?_getD, List.getElem?_map f l i,
      List.getElem?_eq_getElem h]
  simp

lemma getD_of_ge (l : List Player) (i : Nat) (d : Player) (h : l.length ≤ i) :
    l.getD i d = d := by
  rw [List.getD_eq_getElem?_getD, List.getElem?_eq_none h]
  rfl

lemma SendLogEntry_full (st : LoggerState) (e : LogEntry)
    (h : ¬ st.buffer.length < logChannelCapacity) :
    SendLogEntry st e = { st with dropped := st.dropped + 1, submitted := st.submitted + 1 } := by
  unfold SendLogEntry
  rw [if_neg h]

lemma SendLogEntry_room (st : LoggerState) (e : LogEntry)
    (h : st.buffer.length < logChannelCapacity) :
    SendLogEntry st e = { st with buffer := st.buffer ++ [e], submitted := st.submitted + 1 } := by
  unfold SendLogEntry
  rw [if_pos h]

lemma SendLogEntry_conservation (st : LoggerState) (e : LogEntry)
    (h : st.written + st.buffer.length + st.dropped = st.submitted) :
    (SendLogEntry st e).written + (SendLogEntry st e).buffer.length + (SendLogEntry st e).dropped
      = (SendLogEntry st e).submitted := by
  by_cases hb : st.buffer.length < logChannelCapacity
  · rw [SendLogEntry_room st e hb]
    simp
    omega
  · rw [SendLogEntry_full st e hb]
    simp
    omega

lemma drainOne_conservation (st : LoggerState)
    (h : st.written + st.buffer.length + st.dropped = st.submitted) :
    (drainOne st).written + (drainOne st).buffer.length + (drainOne st).dropped
      = (drainOne st).submitted := by
  unfold drainOne
  cases hb : st.buffer with
  | nil => exact h
  | cons x rest =>
    rw [hb] at h
    simp at h ⊢
    omega

lemma runLogger_conservation (ops : List LogOp) (st : LoggerState)
    (h : st.written + st.buffer.length + st.dropped = st.submitted) :
    (runLogger st ops).written + (runLogger st ops).buffer.length + (runLogger st ops).dropped
      = (runLogger st ops).submitted := by
  induction ops generalizing st with
  | nil => exact h
  | cons op t ih =>
    cases op with
    | submit e => exact ih (SendLogEntry st e) (SendLogEntry_conservation st e h)
    | drain => exact ih (drainOne st) (drainOne_conservation st h)

lemma runLogger_submitAll (entries : List LogEntry) (st : LoggerState)
    (hb : st.buffer.length ≤ logChannelCapacity) :
    (runLogger st (entries.map LogOp.submit)).buffer.length
        = min (st.buffer.length + entries.length) logChannelCapacity ∧
    (runLogger st (entries.map LogOp.submit)).dropped
        = st.dropped + (st.buffer.length + entries.length - logChannelCapacity) := by
  induction entries generalizing st with
  | nil =>
    simp only [List.map_nil, runLogger, List.length_nil]
    omega
  | cons e t ih =>
    have hred : runLogger st ((e :: t).map LogOp.submit) = runLogger (SendLogEntry st e) (t.map LogOp.submit) := rfl
    rw [hred]
    by_cases hlt : st.buffer.length < logChannelCapacity
    · rw [SendLogEntry_room st e hlt]
      have h2 := ih { st with buffer := st.buffer ++ [e], submitted := st.submitted + 1 }
        (by simp; omega)
      simp at h2 ⊢
      omega
    · rw [SendLogEntry_full st e hlt]
      have h2 := ih { st with dropped := st.dropped + 1, submitted := st.submitted + 1 } hb
      simp at h2 ⊢
      omega

lemma handleTick_run (m : Model)
    (h : m.GameStarted = true ∧ m.GameStatus = GameStatus.gameInProgress) :
    (handleTick m).1.TotalGameTime = m.TotalGameTime + 1 ∧
    (handleTick m).1.Players
      = m.Players.map (fun p => if p.IsTurn then { p with TimeElapsed := p.TimeElapsed + 1 } else p) := by
  unfold handleTick
  rw [if_pos h]
  exact ⟨rfl, rfl⟩

lemma nextPhasePlayer_CurrentPhase (m : Model) (p : Player) :
    (nextPhasePlayer m p).CurrentPhase
      = if p.IsTurn = true ∧ p.CurrentPhase < m.Phases.length - 1
        then p.CurrentPhase + 1 else p.CurrentPhase := by
  unfold nextPhasePlayer
  split <;> simp_all

lemma prevPhasePlayer_CurrentPhase (m : Model) (p : Player) :
    (prevPhasePlayer m p).CurrentPhase
      = if p.IsTurn = true ∧ 0 < p.CurrentPhase
        then p.CurrentPhase - 1 else p.CurrentPhase := by
  unfold prevPhasePlayer
  split <;> simp_all

lemma endGamePlayersAux_getD (m : Model) (k i : Nat) (l : List Player) (h : i < l.length) :
    (endGamePlayersAux m k l).getD i anyPlayer = endGamePlayer m (k + i) (l.getD i anyPlayer) := by
  induction l generalizing k i with
  | nil => simp at h
  | cons a t ih =>
    cases i with
    | zero => simp [endGamePlayersAux]
    | succ n =>
      have hk : k + (n + 1) = (k + 1) + n := by omega
      rw [hk]
      simpa [endGamePlayersAux] using ih (k + 1) n (by simpa using h)

lemma endGamePlayer_fields (m : Model) (i : Nat) (p : Player) :
    (endGamePlayer m i p).TimeElapsed = 0 ∧
    (endGamePlayer m i p).TurnCount = 0 ∧
    (endGamePlayer m i p).CurrentPhase = 0 ∧
    (endGamePlayer m i p).IsTurn = (i == 0) ∧
    (endGamePlayer m i p).ActionLog
      = [⟨p.Name, 0, endGamePhaseLabel m,
          if i == 0 then "Game ended - reset to initial state" else "Game ended"⟩] := by
  unfold endGamePlayer AddLogEntry endGamePhaseLabel
  split <;> simp_all

lemma handleEndGame_run (m : Model) (h : m.GameStarted = true) :
    (handleEndGame m).1.Players
      = endGamePlayersAux
          { m with GameStatus := GameStatus.gameNotStarted, GameStarted := false, TotalGameTime := 0 }
          0 m.Players := by
  unfold handleEndGame
  rw [if_pos h]

end Lemmas

section ClaimTheorems

/-- **C10.** Reducing a `nil` message returns the state unchanged and no
command (Go's type switch sends a nil interface value to the `default:`
branch), and does not panic: the reducer is total on `nilMsg`, returning
`some` with the untouched model and `NoCommand`. -/
theorem nil_message_is_noop (m : Model) : Update Msg.nilMsg m = some (m, NoCommand) := rfl

/-- **C9** (amended). Each one-second iteration of the scheduler goroutine
posts a `Tick` message unconditionally, but performs the direct render-only
clock repaint only when `GameStarted` is true (the repaint sits under
`if model.GameStarted` in `src/cmd/hammerclock/main.go:101`). -/
theorem scheduler_tick_actions (gameStarted : Bool) :
    (schedulerTickIteration gameStarted).postsTick = true ∧
    (schedulerTickIteration gameStarted).repaintsClock = gameStarted :=
  ⟨rfl, rfl⟩

/-- **C9** counterexample: with `GameStarted = false` the iteration posts the
tick but does not repaint the clock, refuting "regardless … of GameStarted,
the scheduler … performs the direct, render-only clock repaint". -/
theorem scheduler_no_repaint_before_start :
    (schedulerTickIteration false).postsTick = true ∧
    (schedulerTickIteration false).repaintsClock = false :=
  ⟨rfl, rfl⟩

/-- **C7.** From `GameStatus = NotStarted`, three consecutive `Start`
messages drive the status through `InProgress`, then `Paused`, then
`InProgress`; the first transition into `InProgress` also sets
`GameStarted = true`. -/
theorem start_messages_cycle (m : Model) (h : m.GameStatus = GameStatus.gameNotStarted) :
    Update Msg.startGame m = some (handleStartGame m) ∧
    (handleStartGame m).1.GameStatus = GameStatus.gameInProgress ∧
    (handleStartGame m).1.GameStarted = true ∧
    (handleStartGame (handleStartGame m).1).1.GameStatus = GameStatus.gamePaused ∧
    (handleStartGame (handleStartGame (handleStartGame m).1).1).1.GameStatus
      = GameStatus.gameInProgress := by
  refine ⟨rfl, ?_, ?_, ?_, ?_⟩ <;> simp [handleStartGame, h]

/-- Witness for C7 at the initial state. -/
theorem start_messages_cycle_witness :
    (handleStartGame NewModel).1.GameStatus = GameStatus.gameInProgress ∧
    (handleStartGame NewModel).1.GameStarted = true ∧
    (handleStartGame (handleStartGame NewModel).1).1.GameStatus = GameStatus.gamePaused ∧
    (handleStartGame (handleStartGame (handleStartGame NewModel).1).1).1.GameStatus
      = GameStatus.gameInProgress := by
  have h := start_messages_cycle NewModel (by decide)
  exact ⟨h.2.1, h.2.2.1, h.2.2.2.1, h.2.2.2.2⟩

/-- **C5.** A `Tick` message with `GameStarted = true` and
`GameStatus = InProgress` adds exactly one second to `TotalGameTime` and to
the `TimeElapsed` of the active player (and of no other); in every other
combination the reducer returns the state unchanged. -/
theorem tick_accounting (m : Model) :
    Update Msg.tick m = some (handleTick m) ∧
    (m.GameStarted = true ∧ m.GameStatus = GameStatus.gameInProgress →
      (handleTick m).1.TotalGameTime = m.TotalGameTime + 1 ∧
      ∀ i : Nat,
        ((handleTick m).1.Players.getD i anyPlayer).TimeElapsed
          = (m.Players.getD i anyPlayer).TimeElapsed
            + (if (m.Players.getD i anyPlayer).IsTurn = true then 1 else 0)) ∧
    (¬(m.GameStarted = true ∧ m.GameStatus = GameStatus.gameInProgress) →
      handleTick m = (m, NoCommand)) := by
  refine ⟨rfl, ?_, ?_⟩
  · intro h
    obtain ⟨htot, hpl⟩ := handleTick_run m h
    refine ⟨htot, ?_⟩
    intro i
    rw [hpl]
    by_cases hi : i < m.Players.length
    · rw [getD_map_of_lt _ _ _ _ hi]
      cases hp : (m.Players.getD i anyPlayer).IsTurn <;> simp [hp]
    · push_neg at hi
      have hlen : (m.Players.map
          (fun p => if p.IsTurn then { p with TimeElapsed := p.TimeElapsed + 1 } else p)).length
            ≤ i := by simpa using hi
      rw [getD_of_ge _ _ _ hlen, getD_of_ge _ _ _ hi]
      simp [anyPlayer]
  · intro h
    unfold handleTick
    rw [if_neg h]

/-- Witness for C5: one tick on the freshly started initial state (active
player 0 gains one second, total time gains one second) and one tick on the
unstarted initial state (no change). -/
theorem tick_accounting_witness :
    (handleTick (handleStartGame NewModel).1).1.TotalGameTime
      = (handleStartGame NewModel).1.TotalGameTime + 1 ∧
    ((handleTick (handleStartGame NewModel).1).1.Players.getD 0 anyPlayer).TimeElapsed
      = ((handleStartGame NewModel).1.Players.getD 0 anyPlayer).TimeElapsed + 1 ∧
    ((handleTick (handleStartGame NewModel).1).1.Players.getD 1 anyPlayer).TimeElapsed
      = ((handleStartGame NewModel).1.Players.getD 1 anyPlayer).TimeElapsed ∧
    handleTick NewModel = (NewModel, NoCommand) := by
  have hrun := tick_accounting (handleStartGame NewModel).1
  have hstop := tick_accounting NewModel
  have h1 := (hrun.2.1 (by decide)).1
  have h2 := (hrun.2.1 (by decide)).2 0
  have h3 := (hrun.2.1 (by decide)).2 1
  have h4 := hstop.2.2 (by decide)
  refine ⟨h1, ?_, ?_, h4⟩
  · rw [h2, (by decide : ((handleStartGame NewModel).1.Players.getD 0 anyPlayer).IsTurn = true)]
    simp
  · rw [h3, (by decide : ((handleStartGame NewModel).1.Players.getD 1 anyPlayer).IsTurn = false)]
    simp

/-- **C4** (amended). Each option setter except the ruleset one validates its
payload defensively: a non-positive player count or an out-of-range
player-name index leaves the state unchanged; palette, time-format and
logging-flag setters always succeed, and the one-turn-for-all setter succeeds
whenever the selected ruleset index is in range. The ruleset setter, however,
performs no bounds check: it succeeds exactly when the requested index is in
range and panics (index out of range) otherwise. -/
theorem option_setters_validation (m : Model) (count index ridx : Int)
    (nm pal fmtS : String) (b v : Bool) :
    (count ≤ 0 → Update (Msg.setPlayerCount count) m = some (m, NoCommand)) ∧
    (index < 0 ∨ (m.Options.PlayerNames.length : Int) ≤ index →
      Update (Msg.setPlayerName index nm) m = some (m, NoCommand)) ∧
    (Update (Msg.setColorPalette pal) m).isSome = true ∧
    (Update (Msg.setTimeFormat fmtS) m).isSome = true ∧
    (Update (Msg.setEnableCSVLog b) m).isSome = true ∧
    (m.Options.Default < m.Options.Rules.length →
      (Update (Msg.setOneTurnForAllPlayers v) m).isSome = true) ∧
    ((Update (Msg.setRuleset ridx) m).isSome = true ↔
      0 ≤ ridx ∧ ridx.toNat < m.Options.Rules.length) := by
  refine ⟨?_, ?_, rfl, rfl, rfl, ?_, ?_⟩
  · intro h
    simp only [Update, handleSetPlayerCount]
    rw [if_pos h]
  · intro h
    simp only [Update, handleSetPlayerName]
    rw [if_pos h]
  · intro h
    simp only [Update, handleSetOneTurnForAllPlayers]
    rw [dif_pos h]
    rfl
  · simp only [Update, handleSetRuleset]
    by_cases h : 0 ≤ ridx ∧ ridx.toNat < m.Options.Rules.length
    · rw [dif_pos h]
      simp [h]
    · rw [dif_neg h]
      simp [h]

/-- Witness for C4 (amended) at the initial state: player count 0 and
player-name index 5 are rejected without effect, the one-turn toggle
succeeds, and ruleset index 7 (in range) succeeds. -/
theorem option_setters_validation_witness :
    Update (Msg.setPlayerCount 0) NewModel = some (NewModel, NoCommand) ∧
    Update (Msg.setPlayerName 5 "X") NewModel = some (NewModel, NoCommand) ∧
    (Update (Msg.setOneTurnForAllPlayers true) NewModel).isSome = true ∧
    (Update (Msg.setRuleset 7) NewModel).isSome = true := by
  have h := option_setters_validation NewModel 0 5 7 "X" "k9s" "24h" true true
  exact ⟨h.1 (by decide), h.2.1 (by decide), h.2.2.2.2.2.1 (by decide),
    (h.2.2.2.2.2.2).mpr (by decide)⟩

/-- **C4** counterexample: `SetRulesetMsg{Index: 8}` against the initial
state (whose rules table has exactly 8 entries) hits the unguarded
`model.Options.Rules[msg.Index]` and panics — modelled as `none` — instead
of leaving the state unchanged, refuting "every option-mutation handler
validates the payload defensively and never raises". -/
theorem set_ruleset_out_of_range_panics :
    Update (Msg.setRuleset 8) NewModel = none ∧ NewModel.Options.Rules.length = 8 := by
  constructor <;> decide

/-- **C8.** The asynchronous logger's backpressure policy: submitting to a
full buffer (capacity 100) drops the entry, leaving the buffer (and the rows
already written) unchanged — `SendLogEntry` is a total function, so the
caller is never blocked; over any interleaving of submissions and drain
steps, the cumulative rows written never exceed the cumulative entries
submitted; and submitting more entries than the capacity (with the drain
goroutine idle) drops exactly the overflow. -/
theorem async_logger_backpressure :
    (∀ (st : LoggerState) (e : LogEntry), st.buffer.length = logChannelCapacity →
      (SendLogEntry st e).buffer = st.buffer ∧
      (SendLogEntry st e).dropped = st.dropped + 1 ∧
      (SendLogEntry st e).written = st.written) ∧
    (∀ ops : List LogOp,
      (runLogger initialLoggerState ops).written ≤ (runLogger initialLoggerState ops).submitted) ∧
    (∀ entries : List LogEntry, logChannelCapacity ≤ entries.length →
      (runLogger initialLoggerState (entries.map LogOp.submit)).dropped
        = entries.length - logChannelCapacity ∧
      (runLogger initialLoggerState (entries.map LogOp.submit)).buffer.length
        = logChannelCapacity) := by
  refine ⟨?_, ?_, ?_⟩
  · intro st e h
    unfold SendLogEntry
    rw [if_neg (by omega)]
    exact ⟨rfl, rfl, rfl⟩
  · intro ops
    have h := runLogger_conservation ops initialLoggerState rfl
    omega
  · intro entries h
    obtain ⟨hlen, hdrop⟩ :=
      runLogger_submitAll entries initialLoggerState (by simp [initialLoggerState])
    refine ⟨?_, ?_⟩
    · rw [hdrop]
      simp [initialLoggerState]
    · rw [hlen]
      simp only [initialLoggerState]
      simp
      omega

/-- Witness for C8: a buffer filled to capacity drops the next entry; the
empty trace writes nothing; 150 submissions from a fresh logger drop exactly
50 entries and leave the buffer at capacity 100. -/
theorem async_logger_backpressure_witness :
    (SendLogEntry ⟨List.replicate 100 ⟨"", 0, "", ""⟩, 0, 0, 0⟩ ⟨"", 0, "", ""⟩).buffer
      = List.replicate 100 ⟨"", 0, "", ""⟩ ∧
    (runLogger initialLoggerState []).written ≤ (runLogger initialLoggerState []).submitted ∧
    (runLogger initialLoggerState
        ((List.replicate 150 (⟨"", 0, "", ""⟩ : LogEntry)).map LogOp.submit)).dropped = 50 ∧
    (runLogger initialLoggerState
        ((List.replicate 150 (⟨"", 0, "", ""⟩ : LogEntry)).map LogOp.submit)).buffer.length = 100 := by
  have h := async_logger_backpressure
  have h1 := (h.1 ⟨List.replicate 100 ⟨"", 0, "", ""⟩, 0, 0, 0⟩ ⟨"", 0, "", ""⟩ (by decide)).1
  have h3 := h.2.2 (List.replicate 150 (⟨"", 0, "", ""⟩ : LogEntry)) (by decide)
  refine ⟨h1, h.2.1 [], ?_, ?_⟩
  · rw [h3.1]
    decide
  · rw [h3.2]
    decide

/-- **C1** (amended). Every state reachable from the initial state keeps
exactly two players and — in particular whenever `GameStarted` — exactly one
of them holds the turn; and `SwitchTurns`, which flips `IsTurn` on every
player, preserves the exactly-one-active property for the two-player states
that actually arise (no reducer handler ever changes the length of the
players list), though not for arbitrary player counts. -/
theorem reachable_exactly_one_turn :
    (∀ s : Model, Reachable s → s.Players.length = 2 ∧
      (s.GameStarted = true → countActive s.Players = 1)) ∧
    (∀ s : Model, s.Players.length = 2 → countActive s.Players = 1 →
      countActive (handleSwitchTurns s).1.Players = 1) := by
  constructor
  · intro s hs
    have h := inv_reachable hs
    exact ⟨h.1, fun _ => h.2⟩
  · intro s hlen hcnt
    exact (inv_handleSwitchTurns s ⟨hlen, hcnt⟩).2

/-- Witness for C1 at the initial state (reachable by the empty message
sequence): two players, one active, still one active after `SwitchTurns`. -/
theorem reachable_exactly_one_turn_witness :
    NewModel.Players.length = 2 ∧ countActive NewModel.Players = 1 ∧
    countActive (handleSwitchTurns NewModel).1.Players = 1 := by
  have h := reachable_exactly_one_turn
  exact ⟨(h.1 NewModel Relation.ReflTransGen.refl).1, by decide,
    h.2 NewModel (by decide) (by decide)⟩

/-- **C1** counterexample: on a started three-player state with exactly one
active player, `SwitchTurns` leaves two players active, refuting "reducing
SwitchTurns … preserves this for every player count". -/
theorem switch_turns_three_players_two_active :
    threePlayerModel.GameStarted = true ∧
    countActive threePlayerModel.Players = 1 ∧
    countActive (handleSwitchTurns threePlayerModel).1.Players = 2 := by
  refine ⟨rfl, rfl, ?_⟩
  decide

/-- **C3** (amended). `EndGameConfirm{Confirmed:false}` leaves the state
untouched; `EndGameConfirm{Confirmed:true}` performs the reset only when
`GameStarted` (otherwise the state is untouched as well): every player's
`TimeElapsed`, `TurnCount` and `CurrentPhase` become zero, `IsTurn` is true
for player 0 only, and each `ActionLog` is cleared and then receives the
single "Game ended" entry (so it ends holding exactly that entry). In every
case the returned command requests the main screen be restored. -/
theorem end_game_confirm (m : Model) (c : Bool) :
    Update (Msg.endGameConfirm c) m = some (handleEndGameConfirm c m) ∧
    handleEndGameConfirm false m = (m, some Msg.showMainScreen) ∧
    (handleEndGameConfirm true m).2 = some Msg.showMainScreen ∧
    (m.GameStarted = false → (handleEndGameConfirm true m).1 = m) ∧
    (m.GameStarted = true →
      (handleEndGameConfirm true m).1.Players.length = m.Players.length ∧
      ∀ i : Nat, i < m.Players.length →
        ((handleEndGameConfirm true m).1.Players.getD i anyPlayer).TimeElapsed = 0 ∧
        ((handleEndGameConfirm true m).1.Players.getD i anyPlayer).TurnCount = 0 ∧
        ((handleEndGameConfirm true m).1.Players.getD i anyPlayer).CurrentPhase = 0 ∧
        ((handleEndGameConfirm true m).1.Players.getD i anyPlayer).IsTurn = (i == 0) ∧
        ((handleEndGameConfirm true m).1.Players.getD i anyPlayer).ActionLog
          = [⟨(m.Players.getD i anyPlayer).Name, 0, endGamePhaseLabel m,
              if i == 0 then "Game ended - reset to initial state" else "Game ended"⟩]) := by
  refine ⟨rfl, rfl, rfl, ?_, ?_⟩
  · intro h
    have : (handleEndGameConfirm true m).1 = (handleEndGame m).1 := rfl
    rw [this]
    unfold handleEndGame
    rw [if_neg (by simp [h])]
  · intro h
    have he : (handleEndGameConfirm true m).1.Players
        = endGamePlayersAux
            { m with
               GameStatus := GameStatus.gameNotStarted,
               GameStarted := false,
               TotalGameTime := 0 } 0 m.Players := handleEndGame_run m h
    refine ⟨by rw [he, endGamePlayersAux_length], ?_⟩
    intro i hi
    rw [he, endGamePlayersAux_getD _ 0 i _ hi, Nat.zero_add]
    exact endGamePlayer_fields _ i _

/-- Witness for C3: cancelling on the initial state is a no-op with a
restore command; confirming on the freshly started initial state zeroes
player 0's clock, returns the turn to player 0 only, and leaves player 1's
action log holding exactly the "Game ended" entry. -/
theorem end_game_confirm_witness :
    handleEndGameConfirm false NewModel = (NewModel, some Msg.showMainScreen) ∧
    ((handleEndGameConfirm true (handleStartGame NewModel).1).1.Players.getD 0
        anyPlayer).TimeElapsed = 0 ∧
    ((handleEndGameConfirm true (handleStartGame NewModel).1).1.Players.getD 0
        anyPlayer).IsTurn = true ∧
    ((handleEndGameConfirm true (handleStartGame NewModel).1).1.Players.getD 1
        anyPlayer).IsTurn = false ∧
    ((handleEndGameConfirm true (handleStartGame NewModel).1).1.Players.getD 1
        anyPlayer).ActionLog
      = [⟨"Player " ++ String.singleton (Char.ofNat 2), 0, "Command Phase", "Game ended"⟩] := by
  have hp := (end_game_confirm (handleStartGame NewModel).1 true).2.2.2.2 (by decide)
  have h0 := hp.2 0 (by decide)
  have h1 := hp.2 1 (by decide)
  exact ⟨(end_game_confirm NewModel false).2.1, h0.1, h0.2.2.2.1, h1.2.2.2.1, h1.2.2.2.2⟩

/-- **C3** counterexample: on a state with `GameStarted = false` whose player
still carries `TimeElapsed = 5` and `TurnCount = 3`,
`EndGameConfirm{Confirmed:true}` resets nothing, refuting "for every state …
resets every player's TimeElapsed, TurnCount and CurrentPhase to zero". -/
theorem end_game_confirm_unstarted_no_reset :
    unstartedTimerModel.GameStarted = false ∧
    ((handleEndGameConfirm true unstartedTimerModel).1.Players.getD 0 anyPlayer).TimeElapsed = 5 ∧
    ((handleEndGameConfirm true unstartedTimerModel).1.Players.getD 0 anyPlayer).TurnCount = 3 := by
  refine ⟨rfl, ?_, ?_⟩ <;> decide

/-- **C6.** For the active player at an interior phase index, `NextPhase`
then `PrevPhase` returns `CurrentPhase` to the original index; `PrevPhase`
at index 0 and `NextPhase` at the last index leave `CurrentPhase` unchanged
(no wraparound); and an inactive player's `CurrentPhase` is never changed by
either handler. -/
theorem phase_navigation (m : Model) (i : Nat) (hi : i < m.Players.length) :
    ((m.Players.getD i anyPlayer).IsTurn = true →
      (m.Players.getD i anyPlayer).CurrentPhase < m.Phases.length - 1 →
      ((handlePrevPhase (handleNextPhase m).1).1.Players.getD i anyPlayer).CurrentPhase
        = (m.Players.getD i anyPlayer).CurrentPhase) ∧
    ((m.Players.getD i anyPlayer).CurrentPhase = 0 →
      ((handlePrevPhase m).1.Players.getD i anyPlayer).CurrentPhase = 0) ∧
    ((m.Players.getD i anyPlayer).CurrentPhase = m.Phases.length - 1 →
      ((handleNextPhase m).1.Players.getD i anyPlayer).CurrentPhase
        = (m.Players.getD i anyPlayer).CurrentPhase) ∧
    ((m.Players.getD i anyPlayer).IsTurn = false →
      ((handleNextPhase m).1.Players.getD i anyPlayer).CurrentPhase
        = (m.Players.getD i anyPlayer).CurrentPhase ∧
      ((handlePrevPhase m).1.Players.getD i anyPlayer).CurrentPhase
        = (m.Players.getD i anyPlayer).CurrentPhase) := by
  have hnext : (handleNextPhase m).1.Players.getD i anyPlayer
      = nextPhasePlayer m (m.Players.getD i anyPlayer) := by
    rw [show (handleNextPhase m).1.Players = m.Players.map (nextPhasePlayer m) from rfl,
      getD_map_of_lt _ _ _ _ hi]
  have hprev : (handlePrevPhase m).1.Players.getD i anyPlayer
      = prevPhasePlayer m (m.Players.getD i anyPlayer) := by
    rw [show (handlePrevPhase m).1.Players = m.Players.map (prevPhasePlayer m) from rfl,
      getD_map_of_lt _ _ _ _ hi]
  have hi1 : i < (handleNextPhase m).1.Players.length := by
    rw [show (handleNextPhase m).1.Players = m.Players.map (nextPhasePlayer m) from rfl]
    simpa using hi
  have hround : (handlePrevPhase (handleNextPhase m).1).1.Players.getD i anyPlayer
      = prevPhasePlayer (handleNextPhase m).1 (nextPhasePlayer m (m.Players.getD i anyPlayer)) := by
    rw [show (handlePrevPhase (handleNextPhase m).1).1.Players
        = (handleNextPhase m).1.Players.map (prevPhasePlayer (handleNextPhase m).1) from rfl,
      getD_map_of_lt _ _ _ _ hi1, hnext]
  refine ⟨?_, ?_, ?_, ?_⟩
  · intro ht hcp
    have hnp1 : (nextPhasePlayer m (m.Players.getD i anyPlayer)).CurrentPhase
        = (m.Players.getD i anyPlayer).CurrentPhase + 1 := by
      rw [nextPhasePlayer_CurrentPhase, if_pos ⟨ht, hcp⟩]
    have hnp2 := nextPhasePlayer_IsTurn m (m.Players.getD i anyPlayer)
    rw [hround, prevPhasePlayer_CurrentPhase, hnp1, hnp2, if_pos ⟨ht, Nat.succ_pos _⟩]
    simp
  · intro hcp
    rw [hprev, prevPhasePlayer_CurrentPhase, hcp]
    simp
  · intro hcp
    rw [hnext, nextPhasePlayer_CurrentPhase, hcp]
    simp
  · intro ht
    constructor
    · rw [hnext, nextPhasePlayer_CurrentPhase, if_neg (by rw [ht]; simp)]
    · rw [hprev, prevPhasePlayer_CurrentPhase, if_neg (by rw [ht]; simp)]

/-- Witness for C6 on the three-phase demo states: the active player's
round trip from phase 1 lands back on 1; the inactive player at phase 0 is
untouched by `PrevPhase` and `NextPhase`; the active player at the last
phase 2 is untouched by `NextPhase`. -/
theorem phase_navigation_witness :
    ((handlePrevPhase (handleNextPhase phaseDemoModel).1).1.Players.getD 0
        anyPlayer).CurrentPhase = 1 ∧
    ((handlePrevPhase phaseDemoModel).1.Players.getD 1 anyPlayer).CurrentPhase = 0 ∧
    ((handleNextPhase phaseDemoModel).1.Players.getD 1 anyPlayer).CurrentPhase = 0 ∧
    ((handleNextPhase phaseDemoLastModel).1.Players.getD 0 anyPlayer).CurrentPhase = 2 := by
  have hA := phase_navigation phaseDemoModel 0 (by decide)
  have hB := phase_navigation phaseDemoModel 1 (by decide)
  have hC := phase_navigation phaseDemoLastModel 0 (by decide)
  exact ⟨hA.1 (by decide) (by decide), hB.2.1 (by decide), (hB.2.2.2 (by decide)).1,
    hC.2.2.1 (by decide)⟩

end ClaimTheorems

end Hammerclock
